import Mathlib

/-!
Shallow embedding of the Conversational Context & Resilient Dispatch core of
the Alfred bot (`core/ai_handler.py`), together with proofs of the spec's
testable properties.

Modelling conventions:
* `CONVERSATION_CACHE` is a Python `dict` (insertion ordered); it is embedded
  as an association list where updating an existing key keeps its position and
  a new key is appended at the end.
* `deque(maxlen=N)` is embedded as a plain list with appends going through
  `dequeAppend`, which keeps the last `N` entries (a full deque drops from the
  left on append).
* The database table `conversation_history` is embedded as a list of records
  in insertion order.  `timestamp` is `server_default func.now()`, assigned at
  insert time, so insertion order and timestamp order coincide; the embedding
  realises the timestamp as a monotone counter (`clock`).  The `ts` field on a
  cached message is a ghost annotation of its creation instant (the Python
  cache entry stores only `role` and `parts`); no branch of the code reads it.
* The Gemini network call is an oracle `call : Nat -> List Msg -> Except Unit
  String` giving the outcome of each attempt (indexed by attempt number, fed
  the history list actually assembled by the code).
* Database availability is a boolean per interaction (`dbUp`): `true` means
  the session commits, `false` means the `async with` block raises and the
  surrounding `except Exception` clause is taken.
* `fetches`/`writes` are ghost counters incremented exactly where the code
  opens a database session, so "no store access" is expressible.
-/

namespace Alfred

/-- One message turn as held in the cache/context window: the Python dict
`\x7b'role': r, 'parts': [content]\x7d`, plus the ghost creation timestamp. -/
structure Msg where
  role : String
  content : String
  ts : Nat
deriving DecidableEq, Repr

/-- One row of the `conversation_history` table (`core/database.py`). -/
structure Rec where
  guild_id : Nat
  channel_id : Nat
  user_id : Nat
  role : String
  content : String
  ts : Nat
deriving DecidableEq, Repr

abbrev Window := List Msg

/-- `CONVERSATION_CACHE`: insertion-ordered mapping channel id -> window. -/
abbrev Cache := List (Nat × Window)

/-- `CACHE_MAX_SIZE = 100` in `ai_handler.py`. -/
def CACHE_MAX_SIZE : Nat := 100

/-- `CACHE_HISTORY_LENGTH = 20` in `ai_handler.py`. -/
def CACHE_HISTORY_LENGTH : Nat := 20

/-- Python `dict` lookup. -/
def lookupCache (cache : Cache) (c : Nat) : Option Window :=
  match cache with
  | [] => none
  | (k, w) :: rest => if k = c then some w else lookupCache rest c

/-- Python `dict` assignment: an existing key keeps its position, a new key
is appended at the end (dict preserves insertion order). -/
def setCache (cache : Cache) (c : Nat) (w : Window) : Cache :=
  match cache with
  | [] => [(c, w)]
  | (k, w0) :: rest => if k = c then (c, w) :: rest else (k, w0) :: setCache rest c w

/-- The last `n` elements of a list (used both for `LIMIT n` on a
timestamp-descending query read back in chronological order, and for the
drop-from-the-left behaviour of a bounded deque). -/
def lastN (n : Nat) (l : List α) : List α := l.drop (l.length - n)

/-- Append to a `deque(maxlen=maxlen)`: a full deque discards its leftmost
entry. -/
def dequeAppend (maxlen : Nat) (w : Window) (m : Msg) : Window :=
  lastN maxlen (w ++ [m])

/-- The chronological sequence of messages of one channel as stored in the
database (the `select ... where channel_id = c order_by timestamp` contents,
read oldest first). -/
def msgsOf (store : List Rec) (c : Nat) : List Msg :=
  (store.filter (fun r => r.channel_id == c)).map
    (fun r => { role := r.role, content := r.content, ts := r.ts })

/-- The whole mutable state touched by `AIHandler`: the module-level cache,
the database, and the handler's own fields. -/
structure AIState where
  cache : Cache
  store : List Rec
  /-- `len(self._keys)`; `_key_cycler is None` exactly when this is `0`. -/
  numKeys : Nat
  /-- index of the key currently configured into `genai`. -/
  keyIdx : Nat
  /-- `self.bot_user_id` (set by `set_bot_user_id`, `None` before). -/
  botUserId : Option Nat
  /-- keys of `self.models`. -/
  models : List String
  /-- ghost: next timestamp the database would assign. -/
  clock : Nat
  /-- ghost: number of database read sessions opened. -/
  fetches : Nat
  /-- ghost: number of database write sessions opened. -/
  writes : Nat
deriving DecidableEq, Repr

/-- Python truthiness of `self.bot_user_id` (`not self.bot_user_id`). -/
def truthy : Option Nat → Bool
  | none => false
  | some n => n != 0

/-- `AIHandler.configure_next_key` (lines 40-52): `False` when there is no
cycler (zero keys), otherwise advance the cycle by one and reconfigure. -/
def configure_next_key (st : AIState) : Bool × AIState :=
  if st.numKeys = 0 then (false, st)
  else (true, { st with keyIdx := (st.keyIdx + 1) % st.numKeys })

/-- `AIHandler.set_bot_user_id` (lines 54-57). -/
def set_bot_user_id (st : AIState) (botId : Nat) : AIState :=
  { st with botUserId := some botId }

/-- `AIHandler.get_model` (lines 65-79): `None` without a cycler, else a
cached-or-new model instance (the instance itself carries no state we track
beyond its presence in `self.models`). -/
def get_model (st : AIState) (model_name : String) : Option String × AIState :=
  if st.numKeys = 0 then (none, st)
  else if st.models.contains model_name then (some model_name, st)
  else (some model_name, { st with models := st.models ++ [model_name] })

/-- `AIHandler._get_history` (lines 81-118).  On a cache hit the cached deque
is returned unchanged.  On a miss a database session is opened (`fetches`
ghost-incremented):
* if the store is down, the `except Exception` clause catches the error and
  the still-empty deque is returned with the cache untouched;
* otherwise the last `CACHE_HISTORY_LENGTH` rows are read chronologically,
  and the populate step runs: when `len(CONVERSATION_CACHE) > CACHE_MAX_SIZE`
  the code calls `CONVERSATION_CACHE.popitem(last=False)`, which on a plain
  `dict` raises `TypeError` (that keyword exists only on `OrderedDict`); the
  `except` clause swallows it, so nothing is evicted and nothing is inserted.
  Below capacity the window is stored under the channel id. -/
def get_history (st : AIState) (c : Nat) (dbUp : Bool) : Window × AIState :=
  match lookupCache st.cache c with
  | some w => (w, st)
  | none =>
    let st1 := { st with fetches := st.fetches + 1 }
    if dbUp then
      let w := lastN CACHE_HISTORY_LENGTH (msgsOf st.store c)
      if st1.cache.length > CACHE_MAX_SIZE then
        (w, st1)
      else
        (w, { st1 with cache := setCache st1.cache c w })
    else
      ([], st1)

/-- The cache entry for a user turn (`\x7b'role': 'user', 'parts': [prompt]\x7d`). -/
def userMsg (prompt : String) (t : Nat) : Msg :=
  { role := "user", content := prompt, ts := t }

/-- The cache entry for a model turn (`\x7b'role': 'model', 'parts': [response]\x7d`). -/
def modelMsg (response : String) (t : Nat) : Msg :=
  { role := "model", content := response, ts := t }

/-- The window after `_save_history` updates the cache: the (possibly fresh)
deque for the channel with the user message and the model reply appended. -/
def savedWindow (st : AIState) (c : Nat) (prompt response : String) : Window :=
  dequeAppend CACHE_HISTORY_LENGTH
    (dequeAppend CACHE_HISTORY_LENGTH ((lookupCache st.cache c).getD [])
      (userMsg prompt st.clock))
    (modelMsg response (st.clock + 1))

/-- The two `ConversationHistory` rows committed by `_save_history`: the user
row and the model row (whose `user_id` is `self.bot_user_id`, lines 134-141); a
single `session.commit` persists both or neither. -/
def savedRecs (st : AIState) (g c u : Nat) (prompt response : String) : List Rec :=
  [{ guild_id := g, channel_id := c, user_id := u, role := "user", content := prompt, ts := st.clock },
   { guild_id := g, channel_id := c, user_id := st.botUserId.getD 0, role := "model", content := response, ts := st.clock + 1 }]

/-- `AIHandler._save_history` (lines 120-146).  The cache is updated first
(creating a fresh bounded deque when the channel is absent) with the user
message and the model reply; then one database session commits both rows
(`writes` ghost-incremented); a commit failure is caught and logged, leaving
the cache update in place. -/
def save_history (st : AIState) (g c u : Nat) (prompt response : String)
    (dbUp : Bool) : AIState :=
  let st1 := { st with
    cache := setCache st.cache c (savedWindow st c prompt response)
    clock := st.clock + 2
    writes := st.writes + 1 }
  if dbUp then { st1 with store := st1.store ++ savedRecs st g c u prompt response }
  else st1

/-- Result of one `get_chat_response` run, with ghost counters for the number
of model-endpoint attempts made and the number of `configure_next_key` calls
performed inside the retry loop. -/
structure DispatchResult where
  text : String
  state : AIState
  attempts : Nat
  rotations : Nat
deriving DecidableEq, Repr

/-- Fallback returned when the handler is disabled (line 162). -/
def DISABLED_MSG : String := "I am currently unable to connect to my AI core."

/-- Fallback returned when `get_model` yields `None` (line 166). -/
def NO_MODEL_MSG : String := "I could not initialize my AI model. Please check my configuration."

/-- Fallback returned when every key has been tried (line 202). -/
def EXHAUSTED_MSG : String :=
  "My AI core is currently experiencing high traffic. Please try again in a moment."

/-- String at line 204, reachable only if the `for` loop body never runs. -/
def UNEXPECTED_MSG : String := "An unexpected error occurred after multiple retries."

/-- The `for attempt in range(max_retries)` retry loop of `get_chat_response`
(lines 180-204), recursing on the number of remaining iterations.  On success
the exchange is saved and the response text returned; on failure the key is
rotated and the loop re-entered unless this was the final attempt, in which
case the exhausted fallback is returned. -/
def retry_loop (g c u : Nat) (prompt : String) (histList : List Msg)
    (call : Nat → List Msg → Except Unit String) (dbUpSave : Bool) :
    Nat → Nat → AIState → DispatchResult
  | 0, _, st => ⟨UNEXPECTED_MSG, st, 0, 0⟩
  | remaining + 1, attempt, st =>
    match call attempt histList with
    | .ok text =>
      ⟨text, save_history st g c u prompt text dbUpSave, 1, 0⟩
    | .error _ =>
      if remaining = 0 then
        ⟨EXHAUSTED_MSG, st, 1, 0⟩
      else
        let st2 := (configure_next_key st).2
        let r := retry_loop g c u prompt histList call dbUpSave remaining (attempt + 1) st2
        ⟨r.text, r.state, r.attempts + 1, r.rotations + 1⟩

/-- The two synthesized orientation turns inserted when the history is empty
(lines 174-176); not persisted, ghost timestamp `0`. -/
def sysTurns (system_instruction : String) : List Msg :=
  [{ role := "user", content := system_instruction, ts := 0 },
   { role := "model", content := "Understood.", ts := 0 }]

/-- `AIHandler.get_chat_response` (lines 149-204).  Guard, model lookup,
history assembly, then the bounded retry loop with `max_retries =
len(self._keys)`. -/
def get_chat_response (st : AIState) (g c u : Nat) (prompt : String)
    (system_instruction : String) (call : Nat → List Msg → Except Unit String)
    (dbUpFetch dbUpSave : Bool) : DispatchResult :=
  if st.numKeys = 0 ∨ truthy st.botUserId = false then
    ⟨DISABLED_MSG, st, 0, 0⟩
  else
    let gm := get_model st "gemini-1.5-flash-latest"
    if gm.1.isNone then ⟨NO_MODEL_MSG, gm.2, 0, 0⟩
    else
      let hg := get_history gm.2 c dbUpFetch
      let histList := if hg.1.isEmpty then sysTurns system_instruction else hg.1
      retry_loop g c u prompt histList call dbUpSave hg.2.numKeys 0 hg.2

/-- The fresh process state: empty cache, `K` configured keys (the
constructor already ran `configure_next_key` once, leaving index 0 active),
`bot_user_id` not yet set. -/
def initState (K : Nat) : AIState :=
  { cache := [], store := [], numKeys := K, keyIdx := 0, botUserId := none,
    models := [], clock := 0, fetches := 0, writes := 0 }

/-- The cached window of channel `c` (the empty window when absent). -/
def windowOf (st : AIState) (c : Nat) : Window :=
  (lookupCache st.cache c).getD []

/-- A window is in chronological order: creation timestamps strictly
increase from oldest to newest. -/
def ordered (w : Window) : Prop :=
  (w.map Msg.ts).Pairwise (· < ·)

/-- Every message of the window was created before instant `n`. -/
def allBelow (n : Nat) (w : Window) : Prop :=
  ∀ m ∈ w, m.ts < n

/-- State invariant for one conversation `c`: its cached window and its
durable history are chronologically ordered, the window is bounded by
`CACHE_HISTORY_LENGTH`, and all timestamps are in the past. -/
def StInv (c : Nat) (st : AIState) : Prop :=
  ordered (windowOf st c) ∧ (windowOf st c).length ≤ CACHE_HISTORY_LENGTH
    ∧ allBelow st.clock (windowOf st c)
    ∧ ordered (msgsOf st.store c) ∧ allBelow st.clock (msgsOf st.store c)

/-! ### Sequences of cache operations on one conversation -/

/-- One interaction with the context machinery of a single conversation: a
`_get_history` read (store up or down) or a `_save_history` append of an
exchange (commit succeeding or failing). -/
inductive HistOp where
  | get (dbUp : Bool)
  | append (prompt response : String) (dbUp : Bool)

/-- Apply one operation to the shared state, on channel `c`. -/
def applyOp (g c u : Nat) (st : AIState) : HistOp → AIState
  | .get dbUp => (get_history st c dbUp).2
  | .append p r dbUp => save_history st g c u p r dbUp

/-- Run a sequence of operations on channel `c`. -/
def runOps (g c u : Nat) : List HistOp → AIState → AIState
  | [], st => st
  | op :: rest, st => runOps g c u rest (applyOp g c u st op)

/-- Iterated `configure_next_key` (the state after `n` rotations). -/
def rotateN : Nat → AIState → AIState
  | 0, st => st
  | n + 1, st => rotateN n (configure_next_key st).2

/-- A fully enabled handler state: `K` keys and the bot user id set. -/
def enabledState (K : Nat) : AIState :=
  { initState K with botUserId := some 7 }

/-- `n` `_save_history` calls for `n` distinct fresh conversation ids
(channels `n-1, ..., 0`), with the store down so only the cache grows. -/
def saveMany : Nat → AIState → AIState
  | 0, st => st
  | n + 1, st => saveMany n (save_history st 1 n 2 "p" "r" false)

/-! ### Interleaving model of two concurrent `get_chat_response` tasks

Each `respond` call is an asyncio coroutine; control can change hands only at
`await` points.  For one task on channel `c` the atomic segments are:

* from start to the first suspension: the guard, `get_model`, and the
  synchronous cache check inside `_get_history`; on a hit the task runs on
  through `start_chat` and suspends inside `send_message_async`
  (phase `calling`); on a miss it suspends at the database query
  (phase `fetching`);
* resuming from the query: build the deque, run the populate step
  (over-capacity eviction raises `TypeError` and is swallowed; the deque is
  stored unconditionally, overwriting any concurrent insert, line 113), then
  on through `start_chat` into `send_message_async` (phase `calling`);
* resuming from the model call with a successful reply: the cache appends of
  `_save_history` (no `await` between them) followed by the database commit.
  The commit itself is a later suspension, but a concurrent task on the same
  channel can never observe the gap: after the cache append the channel is
  present in the cache, so the other task cannot reach its database-fetch
  path.  Failed attempts rotate the key and sleep, mutating neither cache nor
  store, so the success path is the only window-relevant behaviour.
-/

/-- Where one respond task currently is (suspension points of the coroutine). -/
inductive Phase where
  | ready
  | fetching
  | calling (histList : List Msg)
  | done (text : String)

/-- One concurrent `get_chat_response` task on the shared channel: its
continuation point, its prompt, and the reply its model call will return. -/
structure Task where
  phase : Phase
  prompt : String
  reply : String

/-- Is a model call currently in flight for this task? -/
def isCalling : Phase → Bool
  | .calling _ => true
  | _ => false

/-- Advance one task by one atomic segment (see the section comment). -/
def stepTask (g c u : Nat) (si : String) (st : AIState) (t : Task) :
    AIState × Task :=
  match t.phase with
  | .ready =>
    if st.numKeys = 0 ∨ truthy st.botUserId = false then
      (st, { t with phase := .done DISABLED_MSG })
    else
      match lookupCache st.cache c with
      | some w =>
        (st, { t with phase := .calling (if w.isEmpty then sysTurns si else w) })
      | none => (st, { t with phase := .fetching })
  | .fetching =>
    let w := lastN CACHE_HISTORY_LENGTH (msgsOf st.store c)
    let st1 := { st with fetches := st.fetches + 1 }
    let st2 := if st1.cache.length > CACHE_MAX_SIZE then st1
               else { st1 with cache := setCache st1.cache c w }
    (st2, { t with phase := .calling (if w.isEmpty then sysTurns si else w) })
  | .calling _ =>
    (save_history st g c u t.prompt t.reply true,
      { t with phase := .done t.reply })
  | .done _ => (st, t)

/-- Two concurrent respond tasks over the shared handler state. -/
structure Sys where
  st : AIState
  tA : Task
  tB : Task

/-- One scheduler step: `true` advances task A, `false` advances task B. -/
def stepSys (g c u : Nat) (si : String) (s : Sys) (who : Bool) : Sys :=
  if who then
    let r := stepTask g c u si s.st s.tA
    ⟨r.1, r.2, s.tB⟩
  else
    let r := stepTask g c u si s.st s.tB
    ⟨r.1, s.tA, r.2⟩

/-- Run a schedule (a list of which-task choices). -/
def runSched (g c u : Nat) (si : String) : List Bool → Sys → Sys
  | [], s => s
  | w :: ws, s => runSched g c u si ws (stepSys g c u si s w)

/-- Two fresh concurrent respond tasks on an enabled single-key handler with
an empty cache and store. -/
def sysInit : Sys :=
  ⟨enabledState 1, ⟨.ready, "hi", "hello"⟩, ⟨.ready, "yo", "sup"⟩⟩

/-! ### Basic lemmas about the list/cache primitives -/

theorem lastN_sublist (n : Nat) (l : List α) : List.Sublist (lastN n l) l :=
  List.drop_sublist _ _

theorem length_lastN (n : Nat) (l : List α) : (lastN n l).length ≤ n := by
  simp only [lastN, List.length_drop]
  omega

theorem ordered_of_sublist {w1 w2 : Window} (hs : List.Sublist w1 w2) (h : ordered w2) :
    ordered w1 :=
  List.Pairwise.sublist (hs.map Msg.ts) h

theorem allBelow_of_sublist {n : Nat} {w1 w2 : Window} (hs : List.Sublist w1 w2)
    (h : allBelow n w2) : allBelow n w1 :=
  fun m hm => h m (hs.subset hm)

theorem allBelow_mono {n n' : Nat} {w : Window} (hle : n ≤ n')
    (h : allBelow n w) : allBelow n' w :=
  fun m hm => lt_of_lt_of_le (h m hm) hle

theorem ordered_nil : ordered [] := List.Pairwise.nil

theorem allBelow_nil (n : Nat) : allBelow n [] := by
  intro m hm
  cases hm

theorem ordered_snoc {w : Window} {m : Msg} (h : ordered w)
    (hlt : ∀ x ∈ w, x.ts < m.ts) : ordered (w ++ [m]) := by
  unfold ordered at *
  rw [List.map_append, List.pairwise_append]
  refine ⟨h, List.pairwise_singleton _ _, ?_⟩
  intro a ha b hb
  rw [List.mem_map] at ha
  obtain ⟨x, hx, rfl⟩ := ha
  rw [List.map_singleton, List.mem_singleton] at hb
  subst hb
  exact hlt x hx

theorem allBelow_snoc {n : Nat} {w : Window} {m : Msg} (h : allBelow n w)
    (hm : m.ts < n) : allBelow n (w ++ [m]) := by
  intro x hx
  rcases List.mem_append.mp hx with hx | hx
  · exact h x hx
  · rw [List.mem_singleton] at hx
    subst hx
    exact hm

theorem lookupCache_setCache_self (cache : Cache) (c : Nat) (w : Window) :
    lookupCache (setCache cache c w) c = some w := by
  induction cache with
  | nil => simp [setCache, lookupCache]
  | cons kv rest ih =>
    obtain ⟨k, w0⟩ := kv
    by_cases hk : k = c
    · simp [setCache, lookupCache, hk]
    · simp [setCache, lookupCache, hk, ih]

theorem length_setCache (cache : Cache) (c : Nat) (w : Window) :
    (setCache cache c w).length =
      if (lookupCache cache c).isSome then cache.length else cache.length + 1 := by
  induction cache with
  | nil => simp [setCache, lookupCache]
  | cons kv rest ih =>
    obtain ⟨k, w0⟩ := kv
    by_cases hk : k = c
    · simp [setCache, lookupCache, hk]
    · simp only [setCache, lookupCache, if_neg hk, List.length_cons, ih]
      split <;> rfl

/-- A suffix extraction: when the appended block fits inside the bound, taking
the last `n` elements keeps the whole block at the end. -/
theorem lastN_append (n : Nat) (l1 l2 : List α) (h : l2.length ≤ n) :
    ∃ l0, lastN n (l1 ++ l2) = l0 ++ l2 := by
  refine ⟨l1.drop (l1.length + l2.length - n), ?_⟩
  unfold lastN
  rw [List.length_append, List.drop_append_eq_append_drop]
  have hz : l1.length + l2.length - n - l1.length = 0 := by omega
  rw [hz, List.drop_zero]

/-- Appending a user/model pair through the bounded deque keeps the pair at
the very end of the window (the deque drops only from the left). -/
theorem dequeAppend_two (n : Nat) (hn : 2 ≤ n) (w : Window) (a b : Msg) :
    ∃ w2, dequeAppend n (dequeAppend n w a) b = w2 ++ [a, b] := by
  obtain ⟨l0, h1⟩ := lastN_append n w [a] (by simp; omega)
  obtain ⟨l2, h2⟩ := lastN_append n l0 [a, b] (by simp; omega)
  refine ⟨l2, ?_⟩
  unfold dequeAppend
  rw [h1, List.append_assoc]
  simpa using h2

/-! ### Branch equations and field-preservation facts -/

theorem get_history_hit {st : AIState} {c : Nat} {w : Window} (b : Bool)
    (h : lookupCache st.cache c = some w) : get_history st c b = (w, st) := by
  simp [get_history, h]

theorem get_history_miss_down {st : AIState} {c : Nat}
    (h : lookupCache st.cache c = none) :
    get_history st c false = ([], { st with fetches := st.fetches + 1 }) := by
  simp [get_history, h]

theorem get_history_miss_up_over {st : AIState} {c : Nat}
    (h : lookupCache st.cache c = none) (hcap : st.cache.length > CACHE_MAX_SIZE) :
    get_history st c true = (lastN CACHE_HISTORY_LENGTH (msgsOf st.store c),
      { st with fetches := st.fetches + 1 }) := by
  simp [get_history, h, hcap]

theorem get_history_miss_up_under {st : AIState} {c : Nat}
    (h : lookupCache st.cache c = none)
    (hcap : ¬ st.cache.length > CACHE_MAX_SIZE) :
    get_history st c true = (lastN CACHE_HISTORY_LENGTH (msgsOf st.store c),
      { st with
        fetches := st.fetches + 1
        cache := setCache st.cache c (lastN CACHE_HISTORY_LENGTH (msgsOf st.store c)) }) := by
  simp [get_history, h, hcap]

theorem get_history_cases (st : AIState) (c : Nat) (b : Bool) :
    (get_history st c b).2 = st
    ∨ (get_history st c b).2 = { st with fetches := st.fetches + 1 }
    ∨ (get_history st c b).2 = { st with
        fetches := st.fetches + 1
        cache := setCache st.cache c (lastN CACHE_HISTORY_LENGTH (msgsOf st.store c)) } := by
  rcases h : lookupCache st.cache c with _ | w
  · cases b
    · rw [get_history_miss_down h]
      exact Or.inr (Or.inl rfl)
    · by_cases hcap : st.cache.length > CACHE_MAX_SIZE
      · rw [get_history_miss_up_over h hcap]
        exact Or.inr (Or.inl rfl)
      · rw [get_history_miss_up_under h hcap]
        exact Or.inr (Or.inr rfl)
  · rw [get_history_hit b h]
    exact Or.inl rfl

theorem get_history_numKeys (st : AIState) (c : Nat) (b : Bool) :
    (get_history st c b).2.numKeys = st.numKeys := by
  rcases get_history_cases st c b with h | h | h <;> rw [h]

theorem get_history_botUserId (st : AIState) (c : Nat) (b : Bool) :
    (get_history st c b).2.botUserId = st.botUserId := by
  rcases get_history_cases st c b with h | h | h <;> rw [h]

theorem get_history_clock (st : AIState) (c : Nat) (b : Bool) :
    (get_history st c b).2.clock = st.clock := by
  rcases get_history_cases st c b with h | h | h <;> rw [h]

theorem get_history_store (st : AIState) (c : Nat) (b : Bool) :
    (get_history st c b).2.store = st.store := by
  rcases get_history_cases st c b with h | h | h <;> rw [h]

theorem get_model_snd (st : AIState) (name : String) :
    (get_model st name).2 = st ∨
      (get_model st name).2 = { st with models := st.models ++ [name] } := by
  unfold get_model
  split
  · exact Or.inl rfl
  · split
    · exact Or.inl rfl
    · exact Or.inr rfl

theorem get_model_fst (st : AIState) (name : String) (h : st.numKeys ≠ 0) :
    (get_model st name).1 = some name := by
  simp only [get_model, if_neg h]
  split <;> rfl

theorem get_model_cache (st : AIState) (name : String) :
    (get_model st name).2.cache = st.cache := by
  rcases get_model_snd st name with h | h <;> rw [h]

theorem get_model_store (st : AIState) (name : String) :
    (get_model st name).2.store = st.store := by
  rcases get_model_snd st name with h | h <;> rw [h]

theorem get_model_numKeys (st : AIState) (name : String) :
    (get_model st name).2.numKeys = st.numKeys := by
  rcases get_model_snd st name with h | h <;> rw [h]

theorem get_model_clock (st : AIState) (name : String) :
    (get_model st name).2.clock = st.clock := by
  rcases get_model_snd st name with h | h <;> rw [h]

theorem get_model_botUserId (st : AIState) (name : String) :
    (get_model st name).2.botUserId = st.botUserId := by
  rcases get_model_snd st name with h | h <;> rw [h]

theorem get_model_fetches (st : AIState) (name : String) :
    (get_model st name).2.fetches = st.fetches := by
  rcases get_model_snd st name with h | h <;> rw [h]

/-! ### Invariant preservation -/

theorem msgsOf_append (s1 s2 : List Rec) (c : Nat) :
    msgsOf (s1 ++ s2) c = msgsOf s1 c ++ msgsOf s2 c := by
  simp [msgsOf, List.filter_append]

theorem windowOf_set (st : AIState) (c : Nat) (w : Window) (cache2 : Cache)
    (h : cache2 = setCache st.cache c w) :
    windowOf { st with cache := cache2 } c = w := by
  simp [windowOf, h, lookupCache_setCache_self]

/-- The `_get_history` read-through preserves the per-conversation invariant,
and the window it returns is itself chronologically ordered, bounded, and in
the past. -/
theorem get_history_inv {c : Nat} {st : AIState} (b : Bool) (h : StInv c st) :
    StInv c (get_history st c b).2 ∧ ordered (get_history st c b).1
      ∧ (get_history st c b).1.length ≤ CACHE_HISTORY_LENGTH
      ∧ allBelow st.clock (get_history st c b).1 := by
  obtain ⟨hwo, hwl, hwb, hso, hsb⟩ := h
  have hsub := lastN_sublist CACHE_HISTORY_LENGTH (msgsOf st.store c)
  have hwo2 := ordered_of_sublist hsub hso
  have hwl2 := length_lastN CACHE_HISTORY_LENGTH (msgsOf st.store c)
  have hwb2 := allBelow_of_sublist hsub hsb
  rcases hl : lookupCache st.cache c with _ | w
  · -- cache miss
    cases b
    · -- store down: empty window, nothing cached
      rw [get_history_miss_down hl]
      exact ⟨⟨hwo, hwl, hwb, hso, hsb⟩, ordered_nil, by simp, allBelow_nil _⟩
    · -- store up: the last `W` rows of the channel, in chronological order
      by_cases hcap : st.cache.length > CACHE_MAX_SIZE
      · -- over capacity: eviction raises and is swallowed, nothing inserted
        rw [get_history_miss_up_over hl hcap]
        exact ⟨⟨hwo, hwl, hwb, hso, hsb⟩, hwo2, hwl2, hwb2⟩
      · rw [get_history_miss_up_under hl hcap]
        refine ⟨⟨?_, ?_, ?_, hso, hsb⟩, hwo2, hwl2, hwb2⟩ <;>
          simp only [windowOf, lookupCache_setCache_self, Option.getD_some] <;>
          first | exact hwo2 | exact hwl2 | exact hwb2
  · -- cache hit: state unchanged, the cached window is returned
    rw [get_history_hit b hl]
    have hw : windowOf st c = w := by simp [windowOf, hl]
    rw [hw] at hwo hwl hwb
    exact ⟨⟨by rwa [windowOf, hl], by rwa [windowOf, hl], by rwa [windowOf, hl],
      hso, hsb⟩, hwo, hwl, hwb⟩

/-- Unfolded form of `_save_history`: one cache write, a clock advance of two
ticks, and (when the store is up) the two committed rows. -/
theorem save_history_eq (st : AIState) (g c u : Nat) (p r : String) (b : Bool) :
    save_history st g c u p r b = { st with
      cache := setCache st.cache c (savedWindow st c p r)
      clock := st.clock + 2
      writes := st.writes + 1
      store := if b then st.store ++ savedRecs st g c u p r else st.store } := by
  cases b <;> rfl

theorem msgsOf_savedRecs (st : AIState) (g c u : Nat) (p r : String) :
    msgsOf (savedRecs st g c u p r) c =
      [userMsg p st.clock, modelMsg r (st.clock + 1)] := by
  simp [savedRecs, msgsOf, userMsg, modelMsg]

/-- Appending the two committed rows keeps the channel's durable history
chronologically ordered and bounded by the advanced clock. -/
theorem store_msgs_extend {c : Nat} {st : AIState} (g u : Nat) (p r : String)
    (hso : ordered (msgsOf st.store c))
    (hsb : allBelow st.clock (msgsOf st.store c)) :
    ordered (msgsOf (st.store ++ savedRecs st g c u p r) c)
    ∧ allBelow (st.clock + 2) (msgsOf (st.store ++ savedRecs st g c u p r) c) := by
  rw [msgsOf_append, msgsOf_savedRecs]
  constructor
  · have h1 : ordered (msgsOf st.store c ++ [userMsg p st.clock]) :=
      ordered_snoc hso (fun x hx => hsb x hx)
    have heq : msgsOf st.store c ++ [userMsg p st.clock, modelMsg r (st.clock + 1)]
        = (msgsOf st.store c ++ [userMsg p st.clock]) ++ [modelMsg r (st.clock + 1)] := by
      simp
    rw [heq]
    refine ordered_snoc h1 ?_
    intro x hx
    rcases List.mem_append.mp hx with hx | hx
    · exact Nat.lt_succ_of_lt (hsb x hx)
    · rw [List.mem_singleton] at hx
      subst hx
      exact Nat.lt_succ_self _
  · intro x hx
    rcases List.mem_append.mp hx with hx | hx
    · exact Nat.lt_of_lt_of_le (hsb x hx) (by omega)
    · simp only [List.mem_cons, List.mem_singleton, List.not_mem_nil, or_false] at hx
      rcases hx with rfl | rfl
      · show st.clock < st.clock + 2
        omega
      · show st.clock + 1 < st.clock + 2
        omega

/-- The cache half of `_save_history` yields an ordered, bounded window whose
entries predate the advanced clock. -/
theorem savedWindow_facts {c : Nat} {st : AIState} (p r : String)
    (hwo : ordered (windowOf st c))
    (hwb : allBelow st.clock (windowOf st c)) :
    ordered (savedWindow st c p r)
    ∧ (savedWindow st c p r).length ≤ CACHE_HISTORY_LENGTH
    ∧ allBelow (st.clock + 2) (savedWindow st c p r) := by
  have hin_sub := lastN_sublist CACHE_HISTORY_LENGTH (windowOf st c ++ [userMsg p st.clock])
  have hin_ord : ordered (dequeAppend CACHE_HISTORY_LENGTH (windowOf st c) (userMsg p st.clock)) :=
    ordered_of_sublist hin_sub (ordered_snoc hwo (fun x hx => hwb x hx))
  have hin_mem : ∀ x ∈ dequeAppend CACHE_HISTORY_LENGTH (windowOf st c) (userMsg p st.clock),
      x.ts < st.clock + 1 := by
    intro x hx
    rcases List.mem_append.mp (hin_sub.subset hx) with hx | hx
    · exact Nat.lt_succ_of_lt (hwb x hx)
    · rw [List.mem_singleton] at hx
      subst hx
      exact Nat.lt_succ_self _
  have hout_sub := lastN_sublist CACHE_HISTORY_LENGTH
    (dequeAppend CACHE_HISTORY_LENGTH (windowOf st c) (userMsg p st.clock)
      ++ [modelMsg r (st.clock + 1)])
  refine ⟨?_, length_lastN _ _, ?_⟩
  · exact ordered_of_sublist hout_sub (ordered_snoc hin_ord hin_mem)
  · intro x hx
    rcases List.mem_append.mp (hout_sub.subset hx) with hx2 | hx2
    · exact Nat.lt_succ_of_lt (hin_mem x hx2)
    · rw [List.mem_singleton] at hx2
      subst hx2
      show st.clock + 1 < st.clock + 2
      omega

/-- `_save_history` preserves the per-conversation invariant: the appended
user/model pair carries fresh timestamps, the bounded deque truncates from
the left, and the two database rows are committed in timestamp order. -/
theorem save_history_inv {c : Nat} {st : AIState} (g u : Nat)
    (p r : String) (b : Bool) (h : StInv c st) :
    StInv c (save_history st g c u p r b) := by
  obtain ⟨hwo, hwl, hwb, hso, hsb⟩ := h
  obtain ⟨hw1_ord, hw1_len, hw1_below⟩ := savedWindow_facts p r hwo hwb
  rw [save_history_eq]
  refine ⟨?_, ?_, ?_, ?_, ?_⟩
  · simp only [windowOf, lookupCache_setCache_self, Option.getD_some]
    exact hw1_ord
  · simp only [windowOf, lookupCache_setCache_self, Option.getD_some]
    exact hw1_len
  · simp only [windowOf, lookupCache_setCache_self, Option.getD_some]
    exact hw1_below
  · show ordered (msgsOf (if b then _ else _) c)
    cases b
    · simpa using hso
    · simpa using (store_msgs_extend g u p r hso hsb).1
  · show allBelow _ (msgsOf (if b then _ else _) c)
    cases b
    · simpa using allBelow_mono (by omega) hsb
    · simpa using (store_msgs_extend g u p r hso hsb).2

theorem applyOp_inv {c : Nat} {st : AIState} (g u : Nat) (op : HistOp)
    (h : StInv c st) : StInv c (applyOp g c u st op) := by
  cases op with
  | get dbUp => exact (get_history_inv dbUp h).1
  | append p r dbUp => exact save_history_inv g u p r dbUp h

theorem runOps_inv {c : Nat} (g u : Nat) (ops : List HistOp) :
    ∀ st : AIState, StInv c st → StInv c (runOps g c u ops st) := by
  induction ops with
  | nil => exact fun st h => h
  | cons op rest ih => exact fun st h => ih _ (applyOp_inv g u op h)

theorem StInv_initState (c K : Nat) : StInv c (initState K) := by
  refine ⟨?_, ?_, ?_, ?_, ?_⟩ <;>
    simp [initState, windowOf, lookupCache, msgsOf, ordered, allBelow]

/-! ### The retry loop and the dispatch entry point -/

/-- One unrolling of the retry loop at a positive remaining count. -/
theorem retry_loop_succ (g c u : Nat) (p : String) (hl : List Msg)
    (call : Nat → List Msg → Except Unit String) (bS : Bool)
    (rem attempt : Nat) (st : AIState) :
    retry_loop g c u p hl call bS (rem + 1) attempt st =
      match call attempt hl with
      | .ok text => ⟨text, save_history st g c u p text bS, 1, 0⟩
      | .error _ =>
        if rem = 0 then ⟨EXHAUSTED_MSG, st, 1, 0⟩
        else
          let st2 := (configure_next_key st).2
          let r := retry_loop g c u p hl call bS rem (attempt + 1) st2
          ⟨r.text, r.state, r.attempts + 1, r.rotations + 1⟩ := rfl

/-- The retry loop when the current attempt fails. -/
theorem retry_loop_error_step (g c u : Nat) (p : String) (hl : List Msg)
    (call : Nat → List Msg → Except Unit String) (bS : Bool)
    (rem attempt : Nat) (st : AIState)
    (hc : call attempt hl = Except.error ()) :
    retry_loop g c u p hl call bS (rem + 1) attempt st =
      if rem = 0 then ⟨EXHAUSTED_MSG, st, 1, 0⟩
      else
        ⟨(retry_loop g c u p hl call bS rem (attempt + 1) (configure_next_key st).2).text,
         (retry_loop g c u p hl call bS rem (attempt + 1) (configure_next_key st).2).state,
         (retry_loop g c u p hl call bS rem (attempt + 1) (configure_next_key st).2).attempts + 1,
         (retry_loop g c u p hl call bS rem (attempt + 1) (configure_next_key st).2).rotations + 1⟩ := by
  rw [retry_loop_succ, hc]

/-- The retry loop when the current attempt succeeds. -/
theorem retry_loop_ok_step (g c u : Nat) (p : String) (hl : List Msg)
    (call : Nat → List Msg → Except Unit String) (bS : Bool)
    (rem attempt : Nat) (st : AIState) (r : String)
    (hc : call attempt hl = Except.ok r) :
    retry_loop g c u p hl call bS (rem + 1) attempt st =
      ⟨r, save_history st g c u p r bS, 1, 0⟩ := by
  rw [retry_loop_succ, hc]

theorem retry_loop_all_fail (g c u : Nat) (p : String) (hl : List Msg)
    (call : Nat → List Msg → Except Unit String) (bS : Bool)
    (hFail : ∀ a h, call a h = Except.error ()) :
    ∀ (n attempt : Nat) (st : AIState),
      retry_loop g c u p hl call bS (n + 1) attempt st =
        ⟨EXHAUSTED_MSG, rotateN n st, n + 1, n⟩ := by
  intro n
  induction n with
  | zero =>
    intro attempt st
    rw [retry_loop_error_step g c u p hl call bS 0 attempt st (hFail attempt hl)]
    rfl
  | succ m ih =>
    intro attempt st
    rw [retry_loop_error_step g c u p hl call bS (m + 1) attempt st (hFail attempt hl)]
    rw [if_neg (Nat.succ_ne_zero m)]
    rw [ih (attempt + 1) (configure_next_key st).2]
    rfl

theorem retry_loop_first_ok (g c u : Nat) (p : String) (hl : List Msg)
    (call : Nat → List Msg → Except Unit String) (bS : Bool)
    (n attempt : Nat) (st : AIState) (r : String)
    (hOk : call attempt hl = Except.ok r) :
    retry_loop g c u p hl call bS (n + 1) attempt st =
      ⟨r, save_history st g c u p r bS, 1, 0⟩ :=
  retry_loop_ok_step g c u p hl call bS n attempt st r hOk

theorem retry_loop_attempts_pos (g c u : Nat) (p : String) (hl : List Msg)
    (call : Nat → List Msg → Except Unit String) (bS : Bool)
    (n attempt : Nat) (st : AIState) :
    1 ≤ (retry_loop g c u p hl call bS (n + 1) attempt st).attempts := by
  rcases h : call attempt hl with e | t
  · cases e
    rw [retry_loop_error_step g c u p hl call bS n attempt st h]
    split
    · exact Nat.le_refl 1
    · exact Nat.succ_le_succ (Nat.zero_le _)
  · rw [retry_loop_ok_step g c u p hl call bS n attempt st t h]

/-- With keys configured and the bot id set, `get_chat_response` reduces to
the retry loop started on the post-history state. -/
theorem get_chat_response_enabled (st : AIState) (g c u : Nat) (p si : String)
    (call : Nat → List Msg → Except Unit String) (bF bS : Bool)
    (hK : st.numKeys ≠ 0) (hBot : truthy st.botUserId = true) :
    get_chat_response st g c u p si call bF bS =
      retry_loop g c u p
        (if (get_history (get_model st "gemini-1.5-flash-latest").2 c bF).1.isEmpty
          then sysTurns si
          else (get_history (get_model st "gemini-1.5-flash-latest").2 c bF).1)
        call bS
        (get_history (get_model st "gemini-1.5-flash-latest").2 c bF).2.numKeys 0
        (get_history (get_model st "gemini-1.5-flash-latest").2 c bF).2 := by
  have hguard : ¬(st.numKeys = 0 ∨ truthy st.botUserId = false) := by
    rintro (h | h)
    · exact hK h
    · rw [hBot] at h
      cases h
  have hm : ¬((get_model st "gemini-1.5-flash-latest").1.isNone = true) := by
    rw [get_model_fst st _ hK]
    simp
  simp only [get_chat_response, if_neg hguard, if_neg hm]

/-- C1.  If `K ≥ 1` credentials are configured (and the handler is enabled)
and every model-endpoint call fails, `get_chat_response` attempts the call
exactly `K` times, calls `configure_next_key` exactly `K - 1` times, and
returns the deterministic high-traffic fallback string instead of raising. -/
theorem respond_exhausts_all_keys (st : AIState) (g c u : Nat) (p si : String)
    (call : Nat → List Msg → Except Unit String) (bF bS : Bool)
    (hK : 1 ≤ st.numKeys) (hBot : truthy st.botUserId = true)
    (hFail : ∀ a h, call a h = Except.error ()) :
    (get_chat_response st g c u p si call bF bS).text = EXHAUSTED_MSG
    ∧ (get_chat_response st g c u p si call bF bS).attempts = st.numKeys
    ∧ (get_chat_response st g c u p si call bF bS).rotations = st.numKeys - 1 := by
  have hK0 : st.numKeys ≠ 0 := by omega
  rw [get_chat_response_enabled st g c u p si call bF bS hK0 hBot]
  have hnum : (get_history (get_model st "gemini-1.5-flash-latest").2 c bF).2.numKeys
      = st.numKeys := by
    rw [get_history_numKeys, get_model_numKeys]
  rw [hnum]
  obtain ⟨m, hm⟩ : ∃ m, st.numKeys = m + 1 := ⟨st.numKeys - 1, by omega⟩
  rw [hm]
  rw [retry_loop_all_fail g c u p _ call bS hFail m 0 _]
  exact ⟨rfl, rfl, rfl⟩

/-- Witness for C1: three keys, every call failing — three attempts, two
rotations, the fallback text. -/
theorem respond_exhausts_all_keys_witness :
    1 ≤ (enabledState 3).numKeys
    ∧ truthy (enabledState 3).botUserId = true
    ∧ ((get_chat_response (enabledState 3) 1 2 3 "hi" "sys"
          (fun _ _ => Except.error ()) true true).text = EXHAUSTED_MSG
      ∧ (get_chat_response (enabledState 3) 1 2 3 "hi" "sys"
          (fun _ _ => Except.error ()) true true).attempts = 3
      ∧ (get_chat_response (enabledState 3) 1 2 3 "hi" "sys"
          (fun _ _ => Except.error ()) true true).rotations = 2) :=
  ⟨by decide, by decide,
    respond_exhausts_all_keys (enabledState 3) 1 2 3 "hi" "sys"
      (fun _ _ => Except.error ()) true true (by decide) (by decide)
      (fun _ _ => rfl)⟩

/-- C5 counterexample: with a single-credential pool (`K = 1 ≤ 1`),
`configure_next_key` returns `true`, not `false` — the cycler exists, `next`
yields the same key, and `genai` is reconfigured. -/
theorem rotate_single_key_returns_true :
    (initState 1).numKeys ≤ 1 ∧ (configure_next_key (initState 1)).1 = true := by
  exact ⟨by decide, rfl⟩

/-- C5 (amended).  `configure_next_key` returns `false` (a strict no-op) only
when zero credentials are configured (no cycler); whenever `K ≥ 1` it returns
`true` and advances the active index by exactly one position mod `K` (for
`K = 1` this re-selects the same key). -/
theorem configure_next_key_spec (st : AIState) :
    (st.numKeys = 0 → configure_next_key st = (false, st))
    ∧ (st.numKeys ≠ 0 → configure_next_key st =
        (true, { st with keyIdx := (st.keyIdx + 1) % st.numKeys })) := by
  constructor
  · intro h
    simp [configure_next_key, h]
  · intro h
    simp [configure_next_key, h]

/-- Witness for C5's amended statement at a two-key pool. -/
theorem configure_next_key_spec_witness :
    (initState 2).numKeys ≠ 0
    ∧ configure_next_key (initState 2) =
        (true, { initState 2 with
          keyIdx := ((initState 2).keyIdx + 1) % (initState 2).numKeys }) :=
  ⟨by decide, (configure_next_key_spec (initState 2)).2 (by decide)⟩

/-- C6.  With zero credentials configured, `get_chat_response` returns the
fixed disabled-fallback string, leaves the whole state untouched (so in
particular opens no database session — the ghost `fetches`/`writes` counters
are unchanged) and makes zero model attempts, without raising. -/
theorem zero_keys_disabled (st : AIState) (g c u : Nat) (p si : String)
    (call : Nat → List Msg → Except Unit String) (bF bS : Bool)
    (h0 : st.numKeys = 0) :
    get_chat_response st g c u p si call bF bS = ⟨DISABLED_MSG, st, 0, 0⟩ := by
  simp [get_chat_response, h0]

/-- Witness for C6 at the fresh zero-key state. -/
theorem zero_keys_disabled_witness :
    (initState 0).numKeys = 0
    ∧ get_chat_response (initState 0) 1 2 3 "hi" "sys"
        (fun _ _ => Except.ok "r") true true = ⟨DISABLED_MSG, initState 0, 0, 0⟩ :=
  ⟨rfl, zero_keys_disabled (initState 0) 1 2 3 "hi" "sys" _ true true rfl⟩

/-- C10.  Before `set_bot_user_id` has run (`bot_user_id` still `None`),
`get_chat_response` returns the disabled-fallback string and touches nothing:
no model attempt, no cache or store access (state returned unchanged), even
with credentials configured. -/
theorem respond_before_bot_id_set (st : AIState) (g c u : Nat) (p si : String)
    (call : Nat → List Msg → Except Unit String) (bF bS : Bool)
    (hBot : st.botUserId = none) :
    get_chat_response st g c u p si call bF bS = ⟨DISABLED_MSG, st, 0, 0⟩ := by
  simp [get_chat_response, hBot, truthy]

/-- Witness for C10: two credentials configured, bot id never set. -/
theorem respond_before_bot_id_set_witness :
    (initState 2).botUserId = none
    ∧ get_chat_response (initState 2) 1 2 3 "hi" "sys"
        (fun _ _ => Except.ok "r") true true = ⟨DISABLED_MSG, initState 2, 0, 0⟩ :=
  ⟨rfl, respond_before_bot_id_set (initState 2) 1 2 3 "hi" "sys" _ true true rfl⟩

/-- C3 counterexample: store down on a cache miss, yet the model call still
happens (one attempt) and its answer is returned — the request does not abort
and no error propagates. -/
theorem store_failure_still_calls_model :
    (get_chat_response (enabledState 1) 1 2 3 "hi" "sys"
      (fun _ _ => Except.ok "yo") false true).attempts = 1
    ∧ (get_chat_response (enabledState 1) 1 2 3 "hi" "sys"
      (fun _ _ => Except.ok "yo") false true).text = "yo" :=
  ⟨rfl, rfl⟩

/-- C3 (amended).  When the durable store fails during a cache miss,
`_get_history` swallows the exception: it returns the empty window, caches
nothing for the conversation, and `get_chat_response` proceeds to the model
call (at least one attempt) instead of aborting. -/
theorem store_failure_swallowed (st : AIState) (g c u : Nat) (p si : String)
    (call : Nat → List Msg → Except Unit String) (bS : Bool)
    (hMiss : lookupCache st.cache c = none)
    (hK : st.numKeys ≠ 0) (hBot : truthy st.botUserId = true) :
    (get_history st c false).1 = []
    ∧ (get_history st c false).2.cache = st.cache
    ∧ 1 ≤ (get_chat_response st g c u p si call false bS).attempts := by
  refine ⟨?_, ?_, ?_⟩
  · rw [get_history_miss_down hMiss]
  · rw [get_history_miss_down hMiss]
  · rw [get_chat_response_enabled st g c u p si call false bS hK hBot]
    have hnum : (get_history (get_model st "gemini-1.5-flash-latest").2 c false).2.numKeys
        = st.numKeys := by
      rw [get_history_numKeys, get_model_numKeys]
    rw [hnum]
    obtain ⟨m, hm⟩ : ∃ m, st.numKeys = m + 1 := ⟨st.numKeys - 1, by omega⟩
    rw [hm]
    exact retry_loop_attempts_pos g c u p _ call bS m 0 _

/-- Witness for C3's amended statement: one key, empty cache, store down. -/
theorem store_failure_swallowed_witness :
    lookupCache (enabledState 1).cache 2 = none
    ∧ (enabledState 1).numKeys ≠ 0
    ∧ truthy (enabledState 1).botUserId = true
    ∧ ((get_history (enabledState 1) 2 false).1 = []
      ∧ (get_history (enabledState 1) 2 false).2.cache = (enabledState 1).cache
      ∧ 1 ≤ (get_chat_response (enabledState 1) 1 2 3 "hi" "sys"
          (fun _ _ => Except.ok "yo") false true).attempts) :=
  ⟨rfl, by decide, by decide,
    store_failure_swallowed (enabledState 1) 1 2 3 "hi" "sys"
      (fun _ _ => Except.ok "yo") true rfl (by decide) (by decide)⟩

/-- After `_save_history`, the conversation's window ends with the appended
user message and model reply. -/
theorem save_history_window (st : AIState) (g c u : Nat) (p r : String) (b : Bool) :
    ∃ w, windowOf (save_history st g c u p r b) c =
      w ++ [userMsg p st.clock, modelMsg r (st.clock + 1)] := by
  obtain ⟨w, hw⟩ := dequeAppend_two CACHE_HISTORY_LENGTH (by decide)
    ((lookupCache st.cache c).getD []) (userMsg p st.clock) (modelMsg r (st.clock + 1))
  refine ⟨w, ?_⟩
  rw [save_history_eq]
  simp only [windowOf, lookupCache_setCache_self, Option.getD_some]
  exact hw

/-- After `_save_history`, a `_get_history` on the same conversation is a
pure cache hit: the cached window is returned and the state is untouched. -/
theorem get_history_after_save (st : AIState) (g c u : Nat) (p r : String)
    (b b2 : Bool) :
    get_history (save_history st g c u p r b) c b2 =
      (windowOf (save_history st g c u p r b) c, save_history st g c u p r b) := by
  have hlook : lookupCache (save_history st g c u p r b).cache c =
      some (savedWindow st c p r) := by
    rw [save_history_eq]
    simp only [lookupCache_setCache_self]
  rw [get_history_hit b2 hlook]
  have hwin : windowOf (save_history st g c u p r b) c = savedWindow st c p r := by
    simp only [windowOf, hlook, Option.getD_some]
  rw [hwin]

/-- C7.  If the model call succeeds with reply `r` but the durable write-back
fails, `get_chat_response` still returns `r` unchanged, the store is left
exactly as it was (the failure is logged, not surfaced), and the in-memory
cache update is not rolled back: the conversation's window ends with the
user message and the reply. -/
theorem writeback_failure_keeps_answer (st : AIState) (g c u : Nat) (p si : String)
    (call : Nat → List Msg → Except Unit String) (bF : Bool) (r : String)
    (hK : st.numKeys ≠ 0) (hBot : truthy st.botUserId = true)
    (hOk : ∀ h, call 0 h = Except.ok r) :
    (get_chat_response st g c u p si call bF false).text = r
    ∧ (get_chat_response st g c u p si call bF false).state.store = st.store
    ∧ ∃ w, windowOf (get_chat_response st g c u p si call bF false).state c =
        w ++ [userMsg p st.clock, modelMsg r (st.clock + 1)] := by
  rw [get_chat_response_enabled st g c u p si call bF false hK hBot]
  set stMid := (get_history (get_model st "gemini-1.5-flash-latest").2 c bF).2 with hmid
  have hnum : stMid.numKeys = st.numKeys := by
    rw [hmid, get_history_numKeys, get_model_numKeys]
  have hclock : stMid.clock = st.clock := by
    rw [hmid, get_history_clock, get_model_clock]
  have hstore : stMid.store = st.store := by
    rw [hmid, get_history_store, get_model_store]
  rw [hnum]
  obtain ⟨m, hm⟩ : ∃ m, st.numKeys = m + 1 := ⟨st.numKeys - 1, by omega⟩
  rw [hm]
  rw [retry_loop_first_ok g c u p _ call false m 0 stMid r (hOk _)]
  refine ⟨rfl, ?_, ?_⟩
  · rw [save_history_eq]
    simpa using hstore
  · obtain ⟨w, hw⟩ := save_history_window stMid g c u p r false
    rw [hclock] at hw
    exact ⟨w, hw⟩

/-- C8.  After a successful `get_chat_response`, a subsequent `_get_history`
on the same conversation is a pure cache hit: it returns the window with the
just-appended user message and model reply at its end, and leaves the state
(including the ghost fetch counter) untouched — no store round trip. -/
theorem respond_roundtrip_cached (st : AIState) (g c u : Nat) (p si : String)
    (call : Nat → List Msg → Except Unit String) (bF bS b2 : Bool) (r : String)
    (hK : st.numKeys ≠ 0) (hBot : truthy st.botUserId = true)
    (hOk : ∀ h, call 0 h = Except.ok r) :
    ∃ w, get_history (get_chat_response st g c u p si call bF bS).state c b2 =
        (w ++ [userMsg p st.clock, modelMsg r (st.clock + 1)],
          (get_chat_response st g c u p si call bF bS).state) := by
  rw [get_chat_response_enabled st g c u p si call bF bS hK hBot]
  set stMid := (get_history (get_model st "gemini-1.5-flash-latest").2 c bF).2 with hmid
  have hnum : stMid.numKeys = st.numKeys := by
    rw [hmid, get_history_numKeys, get_model_numKeys]
  have hclock : stMid.clock = st.clock := by
    rw [hmid, get_history_clock, get_model_clock]
  rw [hnum]
  obtain ⟨m, hm⟩ : ∃ m, st.numKeys = m + 1 := ⟨st.numKeys - 1, by omega⟩
  rw [hm]
  rw [retry_loop_first_ok g c u p _ call bS m 0 stMid r (hOk _)]
  obtain ⟨w, hw⟩ := save_history_window stMid g c u p r bS
  rw [hclock] at hw
  refine ⟨w, ?_⟩
  rw [get_history_after_save stMid g c u p r bS b2, hw]

/-- Witness for C7: one key, model returns "hello", write-back down. -/
theorem writeback_failure_keeps_answer_witness :
    (enabledState 1).numKeys ≠ 0
    ∧ truthy (enabledState 1).botUserId = true
    ∧ ((get_chat_response (enabledState 1) 1 2 3 "hi" "sys"
          (fun _ _ => Except.ok "hello") true false).text = "hello"
      ∧ (get_chat_response (enabledState 1) 1 2 3 "hi" "sys"
          (fun _ _ => Except.ok "hello") true false).state.store = (enabledState 1).store
      ∧ ∃ w, windowOf (get_chat_response (enabledState 1) 1 2 3 "hi" "sys"
          (fun _ _ => Except.ok "hello") true false).state 2 =
          w ++ [userMsg "hi" (enabledState 1).clock,
                modelMsg "hello" ((enabledState 1).clock + 1)]) :=
  ⟨by decide, by decide,
    writeback_failure_keeps_answer (enabledState 1) 1 2 3 "hi" "sys"
      (fun _ _ => Except.ok "hello") true "hello" (by decide) (by decide)
      (fun _ => rfl)⟩

/-- Witness for C8: one key, model returns "hello", then a fresh get. -/
theorem respond_roundtrip_cached_witness :
    (enabledState 1).numKeys ≠ 0
    ∧ truthy (enabledState 1).botUserId = true
    ∧ ∃ w, get_history (get_chat_response (enabledState 1) 1 2 3 "hi" "sys"
          (fun _ _ => Except.ok "hello") true true).state 2 true =
        (w ++ [userMsg "hi" (enabledState 1).clock,
               modelMsg "hello" ((enabledState 1).clock + 1)],
          (get_chat_response (enabledState 1) 1 2 3 "hi" "sys"
            (fun _ _ => Except.ok "hello") true true).state) :=
  ⟨by decide, by decide,
    respond_roundtrip_cached (enabledState 1) 1 2 3 "hi" "sys"
      (fun _ _ => Except.ok "hello") true true true "hello" (by decide) (by decide)
      (fun _ => rfl)⟩

/-- C4.  For every sequence of `_save_history` appends and `_get_history`
reads on one conversation id (store up or down at each step), the cached
context window stays in chronological order (strictly increasing creation
timestamps, oldest first) and never holds more than
`CACHE_HISTORY_LENGTH = 20` entries. -/
theorem window_always_chronological_and_bounded (g c u K : Nat)
    (ops : List HistOp) :
    ordered (windowOf (runOps g c u ops (initState K)) c)
    ∧ (windowOf (runOps g c u ops (initState K)) c).length ≤ CACHE_HISTORY_LENGTH := by
  have h := runOps_inv g u ops (initState K) (StInv_initState c K)
  exact ⟨h.1, h.2.1⟩

/-- C2 (code bug).  101 `_save_history` calls on 101 distinct conversation
ids grow `CONVERSATION_CACHE` to 101 entries, past `CACHE_MAX_SIZE = 100` —
the append path never checks capacity — and a subsequent over-capacity cache
miss still evicts nothing (the `popitem(last=False)` eviction raises
`TypeError` on a plain dict and is swallowed): the size stays at 101. -/
theorem cache_capacity_exceeded :
    CACHE_MAX_SIZE = 100
    ∧ (saveMany 101 (initState 1)).cache.length = 101
    ∧ (get_history (saveMany 101 (initState 1)) 999 true).2.cache.length = 101 := by
  refine ⟨rfl, by decide, by decide⟩

/-! ### What the interleaving model shows -/

/-- C9 counterexample: under schedule A, B, A, B both fresh respond tasks on
the same conversation end up suspended inside `send_message_async` at once —
two in-flight CALL_MODELs for one conversation id; the second call never
waited for the first to finish (there is no per-conversation lock). -/
theorem both_model_calls_in_flight :
    isCalling (runSched 1 2 3 "sys" [true, false, true, false] sysInit).tA.phase = true
    ∧ isCalling (runSched 1 2 3 "sys" [true, false, true, false] sysInit).tB.phase = true :=
  ⟨rfl, rfl⟩

theorem stepTask_inv {c : Nat} {st : AIState} (g u : Nat) (si : String)
    (t : Task) (h : StInv c st) : StInv c (stepTask g c u si st t).1 := by
  obtain ⟨ph, p, r⟩ := t
  cases ph with
  | ready =>
    simp only [stepTask]
    split
    · exact h
    · rcases hl : lookupCache st.cache c with _ | w <;> simp only [hl] <;> exact h
  | fetching =>
    obtain ⟨hwo, hwl, hwb, hso, hsb⟩ := h
    have hsub := lastN_sublist CACHE_HISTORY_LENGTH (msgsOf st.store c)
    simp only [stepTask]
    split
    · exact ⟨hwo, hwl, hwb, hso, hsb⟩
    · refine ⟨?_, ?_, ?_, hso, hsb⟩
      · simp only [windowOf, lookupCache_setCache_self, Option.getD_some]
        exact ordered_of_sublist hsub hso
      · simp only [windowOf, lookupCache_setCache_self, Option.getD_some]
        exact length_lastN _ _
      · simp only [windowOf, lookupCache_setCache_self, Option.getD_some]
        exact allBelow_of_sublist hsub hsb
  | calling hl =>
    simp only [stepTask]
    exact save_history_inv g u p r true ⟨h.1, h.2.1, h.2.2.1, h.2.2.2.1, h.2.2.2.2⟩
  | done tx => exact h

theorem stepSys_inv {c : Nat} {s : Sys} (g u : Nat) (si : String) (who : Bool)
    (h : StInv c s.st) : StInv c (stepSys g c u si s who).st := by
  cases who
  · simp only [stepSys]
    exact stepTask_inv g u si s.tB h
  · simp only [stepSys]
    exact stepTask_inv g u si s.tA h

theorem runSched_inv {c : Nat} (g u : Nat) (si : String) (sched : List Bool) :
    ∀ s : Sys, StInv c s.st → StInv c (runSched g c u si sched s).st := by
  induction sched with
  | nil => exact fun s h => h
  | cons w ws ih =>
    intro s h
    exact ih _ (stepSys_inv g u si w h)

theorem StInv_sysInit (c : Nat) : StInv c sysInit.st := by
  refine ⟨?_, ?_, ?_, ?_, ?_⟩ <;>
    simp [sysInit, enabledState, initState, windowOf, lookupCache, msgsOf,
      ordered, allBelow]

/-- C9 (amended).  The code takes no per-conversation lock, so two concurrent
`respond` calls on the same conversation id are not linearized (both can have
a CALL_MODEL in flight at once — see the counterexample); nevertheless every
cache mutation happens in one atomic segment between `await` points, so no
interleaving of the two tasks produces a window with out-of-order timestamps:
under every schedule the conversation's window stays chronologically ordered
and bounded. -/
theorem no_schedule_disorders_window (g c u : Nat) (si : String)
    (sched : List Bool) :
    ordered (windowOf (runSched g c u si sched sysInit).st c)
    ∧ (windowOf (runSched g c u si sched sysInit).st c).length ≤ CACHE_HISTORY_LENGTH := by
  have h := runSched_inv g u si sched sysInit (StInv_sysInit c)
  exact ⟨h.1, h.2.1⟩

end Alfred
